import Mathlib

/-!
# Verification of the Rigs Maya rigging scripts

A shallow embedding, in Lean 4, of the pure logic of the Python rigging
scripts in `Rigs/Build` (base_rig.py, joint_utils.py, control_utils.py,
fkik_blend_build.py, control_creation.py, ik_controls_setup.py), together
with theorems settling the specification claims about them.

Modelling conventions:
* Maya node names and attribute paths are `String`s; Python string
  operations (`replace`, `endswith`, `startswith`, `in`, `list.sort`) are
  embedded at the character-list level, mirroring Python's per-character
  semantics.
* The Maya scene is modelled explicitly where a claim needs it: as a list
  of named nodes with an optional parent (for the group hierarchy), or as
  a list of objects with attribute lists (for `addAttr`/`attributeQuery`).
  `cmds` calls that create nodes append to the scene; names are taken at
  face value (Maya's name-collision auto-renaming is out of scope).
* Functions that perform scene mutations return, alongside their Python
  return value, a record of the operations performed (created nodes,
  parentings, constraints, connections), which is what the claims are
  about.
* World positions are real triples; Python's float arithmetic is modelled
  by exact real arithmetic.
-/

namespace Rigging

/-! ## Python string primitives -/

/-- Embedding of Python `joint.replace('_jnt', '')` (joint_utils.py line 81):
removes every occurrence of the substring `_jnt`, scanning left to right. -/
def removeJnt : List Char → List Char
  | '_' :: 'j' :: 'n' :: 't' :: rest => removeJnt rest
  | c :: rest => c :: removeJnt rest
  | [] => []

/-- Embedding of Python `joint.replace('_FK', rep)` (control_creation.py
lines 49-50): replaces every occurrence of `_FK` by `rep`, left to right. -/
def replaceFK (rep : List Char) : List Char → List Char
  | '_' :: 'F' :: 'K' :: rest => rep ++ replaceFK rep rest
  | c :: rest => c :: replaceFK rep rest
  | [] => []

/-- Embedding of Python `s.endswith(suffix)`. -/
def pyEndsWith (s suffix : String) : Bool :=
  suffix.data.isSuffixOf s.data

/-- Embedding of Python `s.startswith(p)`. -/
def pyStartsWith (s p : String) : Bool :=
  p.data.isPrefixOf s.data

/-- Substring scan: does `sub` occur contiguously in the list? -/
def containsSub (sub : List Char) : List Char → Bool
  | [] => sub.isEmpty
  | c :: rest => sub.isPrefixOf (c :: rest) || containsSub sub rest

/-- Embedding of Python `sub in s` (substring containment). -/
def pyContains (s sub : String) : Bool :=
  containsSub sub.data s.data

/-- Python's string comparison: lexicographic on Unicode code points. -/
def lexLe : List Char → List Char → Bool
  | [], _ => true
  | _ :: _, [] => false
  | a :: as, b :: bs =>
    if a.toNat < b.toNat then true
    else if b.toNat < a.toNat then false
    else lexLe as bs

/-- Embedding of Python `a <= b` on strings. -/
def pyLE (a b : String) : Bool :=
  lexLe a.data b.data

/-- `pyLE` as a relation, for use with sorting. -/
def pyLeRel (a b : String) : Prop :=
  pyLE a b = true

instance : DecidableRel pyLeRel := fun a b => (pyLE a b).decEq true

/-- Embedding of Python `list.sort()` on strings: ascending lexicographic
(code-point) order.  Python's sort is stable, and `pyLeRel` is a total
order in which ties are equal strings, so the sorted permutation is
unique and any correct sort embeds Python's faithfully. -/
def pySortStrings (l : List String) : List String :=
  l.insertionSort pyLeRel

/-! ## base_rig.py -/

/-- A Maya DAG transform node: a name and an optional parent (by name). -/
structure SceneNode where
  name : String
  parent : Option String
deriving DecidableEq, Repr

/-- The scene graph fragment relevant to `build_groups`: the list of
transform nodes, in creation order. -/
abbrev Scene := List SceneNode

/-- Embedding of `cmds.objExists(n)` for a plain name. -/
def objExistsName (s : Scene) (n : String) : Bool :=
  s.any (fun nd => nd.name == n)

/-- Embedding of `cmds.objExists(f'{parent}|{child}')`: some node named
`child` has a parent named `parent`. -/
def objExistsPath (s : Scene) (parent child : String) : Bool :=
  s.any (fun nd => nd.name == child && nd.parent == some parent)

/-- Embedding of `cmds.group(empty=True, name=n, parent=p)`: appends a new
empty transform to the scene. -/
def groupNode (s : Scene) (n : String) (p : Option String) : Scene :=
  s ++ [⟨n, p⟩]

/-- The `hierarchy` dict literal of `build_groups` (base_rig.py lines
26-29); Python 3.7 dicts iterate in insertion order. -/
def hierarchy : List (String × List String) :=
  [("ROOT", ["CONTROLS", "DO_NOT_TOUCH"]),
   ("DO_NOT_TOUCH", ["EXPORT_SKELETON", "GEO", "RIG_DEFORMERS", "RIG_SYSTEMS"])]

/-- One iteration of the inner loop of `build_groups` (base_rig.py lines
38-45): create `child` under `parent` unless the path already exists. -/
def ensure_child (s : Scene) (parent child : String) : Scene :=
  if objExistsPath s parent child then s else groupNode s child (some parent)

/-- Embedding of `build_groups` (base_rig.py): returns the scene after the
mutations together with the Python return value (the ROOT group's name). -/
def build_groups (s : Scene) : Scene × String :=
  let s1 := if objExistsName s "ROOT" then s else groupNode s "ROOT" none
  let s2 := hierarchy.foldl
    (fun acc pc => pc.2.foldl (fun a c => ensure_child a pc.1 c) acc) s1
  (s2, "ROOT")

/-- The idempotence precondition of claim C8: ROOT and all six child
groups (as paths) already exist. -/
def groups_exist (s : Scene) : Bool :=
  objExistsName s "ROOT" &&
  objExistsPath s "ROOT" "CONTROLS" &&
  objExistsPath s "ROOT" "DO_NOT_TOUCH" &&
  objExistsPath s "DO_NOT_TOUCH" "EXPORT_SKELETON" &&
  objExistsPath s "DO_NOT_TOUCH" "GEO" &&
  objExistsPath s "DO_NOT_TOUCH" "RIG_DEFORMERS" &&
  objExistsPath s "DO_NOT_TOUCH" "RIG_SYSTEMS"

/-! ## joint_utils.py -/

/-- Embedding of `get_joint_info` (joint_utils.py).  The Maya queries are
abstracted as the selection list and the parent/children query functions.
The function builds the `joint_info` dictionary but never returns it: the
empty-selection branch returns `None` explicitly, and the main path falls
off the end of the function, which in Python also returns `None`. -/
def get_joint_info (selected_joints : List String)
    (parentOf : String → Option String)
    (childrenOf : String → List String) :
    Option (List (String × Option String × List String)) :=
  if selected_joints.isEmpty then
    none
  else
    let joint_info :=
      selected_joints.map (fun j => (j, parentOf j, childrenOf j))
    let _ := joint_info
    none

/-- Embedding of `duplicate_and_rename_joints` (joint_utils.py): the
returned list of new joint names, paired with the list of `cmds.parent`
operations `(child, new parent)` performed by the hierarchy loop (lines
93-98), which parents each duplicate after the first to the previous one. -/
def duplicate_and_rename_ops (joints : List String) (suffix : String) :
    List String × List (String × String) :=
  let new_joints :=
    joints.map (fun joint => String.mk (removeJnt joint.data) ++ suffix)
  (new_joints,
   if new_joints.length > 1 then new_joints.tail.zip new_joints else [])

/-! ## control_utils.py -/

/-- A Maya user attribute as created by `cmds.addAttr`. -/
structure MayaAttr where
  longName : String
  attributeType : String
  minValue : ℚ
  maxValue : ℚ
  defaultValue : ℚ
  keyable : Bool
deriving DecidableEq, Repr

/-- The scene fragment relevant to `add_fkik_switch_attribute`: existing
objects with their user attributes. -/
abbrev AttrScene := List (String × List MayaAttr)

/-- Embedding of `cmds.objExists(control)` for the attribute scene. -/
def objExistsAttrScene (s : AttrScene) (n : String) : Bool :=
  s.any (fun e => e.1 == n)

/-- Embedding of `cmds.attributeQuery(a, node=n, exists=True)`. -/
def attributeQuery (s : AttrScene) (a n : String) : Bool :=
  s.any (fun e => e.1 == n && e.2.any (fun attr => attr.longName == a))

/-- Embedding of `cmds.addAttr(n, ...)`: appends the attribute to object
`n`'s attribute list. -/
def addAttr (s : AttrScene) (n : String) (a : MayaAttr) : AttrScene :=
  s.map (fun e => if e.1 == n then (e.1, e.2 ++ [a]) else e)

/-- The attribute created by `add_fkik_switch_attribute` (control_utils.py
line 19): a keyable float named FKIK_Switch with min 0, max 1, default 0. -/
def fkik_attr : MayaAttr :=
  { longName := "FKIK_Switch", attributeType := "float",
    minValue := 0, maxValue := 1, defaultValue := 0, keyable := true }

/-- Embedding of `add_fkik_switch_attribute` (control_utils.py): the Python
return value paired with the scene after the call. -/
def add_fkik_switch_attribute (s : AttrScene) (control : String) :
    Bool × AttrScene :=
  if !objExistsAttrScene s control then
    (false, s)
  else if !attributeQuery s "FKIK_Switch" control then
    (true, addAttr s control fkik_attr)
  else
    (false, s)

/-! ## fkik_blend_build.py -/

/-- The suffix-classification loop of `match_joints` (fkik_blend_build.py
lines 18-24): joints ending in `_FK` go to the second list, joints ending
in `_IK` (and not `_FK`) to the third, everything else to the first,
each appended in input order. -/
def classify_joints (joints : List String) :
    List String × List String × List String :=
  joints.foldl
    (fun acc joint =>
      if pyEndsWith joint "_FK" then (acc.1, acc.2.1 ++ [joint], acc.2.2)
      else if pyEndsWith joint "_IK" then (acc.1, acc.2.1, acc.2.2 ++ [joint])
      else (acc.1 ++ [joint], acc.2.1, acc.2.2))
    ([], [], [])

/-- Embedding of `match_joints` (fkik_blend_build.py): classify by suffix,
then sort each list ascending; returns `(export, fk, ik)`. -/
def match_joints (joints : List String) :
    List String × List String × List String :=
  let c := classify_joints joints
  (pySortStrings c.1, pySortStrings c.2.1, pySortStrings c.2.2)

/-- One parent constraint created by `create_fkik_blend_joints`: the export
joint is constrained to the FK and IK joints (in that target order, so
Maya's `weightAliasList` lists the FK weight first and the IK weight
second), and each weight alias receives an incoming connection. -/
structure FkikConstraint where
  driven : String
  target_fk : String
  target_ik : String
  fk_weight_source : String
  ik_weight_source : String
deriving DecidableEq, Repr

/-- The scene operations performed by a successful
`create_fkik_blend_joints` run. -/
structure BlendResult where
  reverse_node : String
  reverse_input : String
  constraints : List FkikConstraint
deriving DecidableEq, Repr

/-- Semantics of a Maya `reverse` node on one channel: output = 1 - input. -/
def reverse_output (x : ℚ) : ℚ := 1 - x

/-- Embedding of `create_fkik_blend_joints` (fkik_blend_build.py).
`Except.ok none` is the warn-and-return-`None` path for mismatched list
lengths; `Except.error` models the uncaught Python exception raised by
`export_joints[0]` on an empty list; `Except.ok (some r)` is the normal
path, recording the shared reverse node, its incoming connection, and one
constraint per joint triple (the Python return value is `r.constraints`).
The `add_fkik_switch_attribute` call on the control is modelled separately
(see `add_fkik_switch_attribute`). -/
def create_fkik_blend_joints (export_joints fk_joints ik_joints : List String)
    (control : String) : Except String (Option BlendResult) :=
  if export_joints.length ≠ fk_joints.length ∨
      export_joints.length ≠ ik_joints.length then
    .ok none
  else
    match export_joints with
    | [] => .error "IndexError: list index out of range"
    | e0 :: _ =>
      let side_tag := if pyStartsWith e0 "l_" then "l_" else "r_"
      let reverse_node := side_tag ++ "FKIK_reverse"
      .ok (some
        { reverse_node := reverse_node
          reverse_input := control ++ ".FKIK_Switch"
          constraints :=
            (export_joints.zip (fk_joints.zip ik_joints)).map (fun t =>
              { driven := t.1
                target_fk := t.2.1
                target_ik := t.2.2
                fk_weight_source := reverse_node ++ ".outputX"
                ik_weight_source := control ++ ".FKIK_Switch" }) })

/-! ## control_creation.py -/

/-- Control naming in `create_fk_controls` (control_creation.py line 49):
`joint.replace('_FK', '_ctrl') if '_FK' in joint else joint + '_ctrl'`. -/
def ctrl_name_of (joint : String) : String :=
  if pyContains joint "_FK" then String.mk (replaceFK "_ctrl".data joint.data)
  else joint ++ "_ctrl"

/-- Offset-group naming in `create_fk_controls` (control_creation.py line
50): `joint.replace('_FK', '_offset') if '_FK' in joint else
joint + '_offset'`. -/
def offset_name_of (joint : String) : String :=
  if pyContains joint "_FK" then String.mk (replaceFK "_offset".data joint.data)
  else joint ++ "_offset"

/-- The scene operations performed by the per-joint loop of
`create_fk_controls`: created controls and offset groups (in creation
order), `(control, its offset group)` parentings, `(offset group, previous
control)` parentings for every joint after the first, `(control, joint)`
parent constraints, and `(offset group, joint)` transform matches. -/
structure FkControlsOps where
  controls : List String
  offsets : List String
  control_parent : List (String × String)
  offset_parent : List (String × String)
  constraints : List (String × String)
  matched : List (String × String)
deriving DecidableEq, Repr

/-- The loop body of `create_fk_controls` (control_creation.py lines
46-83), threaded over the joint list; `prev` is the previously created
control (`created_controls[-1]`), absent on the first iteration. -/
def fk_loop (prev : Option String) : List String → FkControlsOps
  | [] => ⟨[], [], [], [], [], []⟩
  | joint :: rest =>
    let c := ctrl_name_of joint
    let o := offset_name_of joint
    let r := fk_loop (some c) rest
    { controls := c :: r.controls
      offsets := o :: r.offsets
      control_parent := (c, o) :: r.control_parent
      offset_parent :=
        (match prev with
         | some p => [(o, p)]
         | none => []) ++ r.offset_parent
      constraints := (c, joint) :: r.constraints
      matched := (o, joint) :: r.matched }

/-- Embedding of `create_fk_controls` (control_creation.py): the Python
return value (the created control names) paired with the recorded scene
operations.  `scene` stands for `cmds.objExists`: the names of existing
objects.  The FKIK-switch visibility wiring (lines 36-44, 79-82) touches
no value the claims mention and is elided. -/
def create_fk_controls (scene : List String) (control_template : String)
    (joints : List String) : List String × FkControlsOps :=
  if !scene.contains control_template then
    ([], ⟨[], [], [], [], [], []⟩)
  else if joints.isEmpty then
    ([], ⟨[], [], [], [], [], []⟩)
  else
    let ops := fk_loop none joints
    (ops.controls, ops)

/-! ## ik_controls_setup.py -/

/-- The radicand of the inner `get_distance` of `setup_pole_vector`
(ik_controls_setup.py lines 113-116), exactly as written in the source:
note the third term is `(pos2[2] - pos2[2]) ** 2`, which is identically
zero, rather than `(pos2[2] - pos1[2]) ** 2`. -/
def get_distance_sq (pos1 pos2 : ℝ × ℝ × ℝ) : ℝ :=
  (pos2.1 - pos1.1) ^ 2 + (pos2.2.1 - pos1.2.1) ^ 2 +
    (pos2.2.2 - pos2.2.2) ^ 2

/-- Modelled from the claim: the squared 3D Euclidean distance between two
world positions. -/
def euclid_sq (pos1 pos2 : ℝ × ℝ × ℝ) : ℝ :=
  (pos2.1 - pos1.1) ^ 2 + (pos2.2.1 - pos1.2.1) ^ 2 +
    (pos2.2.2 - pos1.2.2) ^ 2

/-- The inner `get_distance` of `setup_pole_vector`: `radicand ** 0.5`. -/
noncomputable def get_distance (pos1 pos2 : ℝ × ℝ × ℝ) : ℝ :=
  Real.sqrt (get_distance_sq pos1 pos2)

/-- `chain_length` in `setup_pole_vector` (ik_controls_setup.py line 118). -/
noncomputable def chain_length_code (start_pos mid_pos end_pos : ℝ × ℝ × ℝ) : ℝ :=
  get_distance start_pos mid_pos + get_distance mid_pos end_pos

/-- `offset_dist = chain_length * 0.8` (ik_controls_setup.py line 119). -/
noncomputable def offset_dist_code (start_pos mid_pos end_pos : ℝ × ℝ × ℝ) : ℝ :=
  chain_length_code start_pos mid_pos end_pos * 0.8

/-- The translate set on the pole-vector offset group (ik_controls_setup.py
lines 122-125): the mid joint's X and Y, and its Z minus the offset. -/
def pv_offset_translate (mid_pos : ℝ × ℝ × ℝ) (offset_dist : ℝ) : ℝ × ℝ × ℝ :=
  (mid_pos.1, mid_pos.2.1, mid_pos.2.2 - offset_dist)

/-! ## Helper lemmas: the group hierarchy -/

theorem path_ensure_self (s : Scene) (p c : String) :
    objExistsPath (ensure_child s p c) p c = true := by
  unfold ensure_child
  split
  · assumption
  · simp [objExistsPath, groupNode, List.any_append]

theorem path_mono {s : Scene} {p c : String} (p' c' : String)
    (h : objExistsPath s p c = true) :
    objExistsPath (ensure_child s p' c') p c = true := by
  unfold ensure_child
  split
  · exact h
  · simp [objExistsPath, groupNode, List.any_append] at h ⊢
    exact Or.inl h

theorem name_mono {s : Scene} {n : String} (p' c' : String)
    (h : objExistsName s n = true) :
    objExistsName (ensure_child s p' c') n = true := by
  unfold ensure_child
  split
  · exact h
  · simp [objExistsName, groupNode, List.any_append] at h ⊢
    exact Or.inl h

theorem groups_exist_after_build (s : Scene) :
    groups_exist (build_groups s).1 = true := by
  show groups_exist
    (ensure_child (ensure_child (ensure_child (ensure_child (ensure_child
      (ensure_child (if objExistsName s "ROOT" then s else groupNode s "ROOT" none)
        "ROOT" "CONTROLS") "ROOT" "DO_NOT_TOUCH") "DO_NOT_TOUCH" "EXPORT_SKELETON")
      "DO_NOT_TOUCH" "GEO") "DO_NOT_TOUCH" "RIG_DEFORMERS")
      "DO_NOT_TOUCH" "RIG_SYSTEMS") = true
  have hr : objExistsName
      (if objExistsName s "ROOT" then s else groupNode s "ROOT" none) "ROOT" = true := by
    split
    · assumption
    · simp [objExistsName, groupNode, List.any_append]
  generalize (if objExistsName s "ROOT" then s else groupNode s "ROOT" none) = s1 at hr ⊢
  simp only [groups_exist, Bool.and_eq_true]
  refine ⟨⟨⟨⟨⟨⟨?_, ?_⟩, ?_⟩, ?_⟩, ?_⟩, ?_⟩, ?_⟩
  · exact name_mono _ _ (name_mono _ _ (name_mono _ _ (name_mono _ _
      (name_mono _ _ (name_mono _ _ hr)))))
  · exact path_mono _ _ (path_mono _ _ (path_mono _ _ (path_mono _ _
      (path_mono _ _ (path_ensure_self s1 "ROOT" "CONTROLS")))))
  · exact path_mono _ _ (path_mono _ _ (path_mono _ _ (path_mono _ _
      (path_ensure_self _ "ROOT" "DO_NOT_TOUCH"))))
  · exact path_mono _ _ (path_mono _ _ (path_mono _ _
      (path_ensure_self _ "DO_NOT_TOUCH" "EXPORT_SKELETON")))
  · exact path_mono _ _ (path_mono _ _
      (path_ensure_self _ "DO_NOT_TOUCH" "GEO"))
  · exact path_mono _ _ (path_ensure_self _ "DO_NOT_TOUCH" "RIG_DEFORMERS")
  · exact path_ensure_self _ "DO_NOT_TOUCH" "RIG_SYSTEMS"

theorem build_groups_of_exists {s : Scene} (h : groups_exist s = true) :
    build_groups s = (s, "ROOT") := by
  simp only [groups_exist, Bool.and_eq_true] at h
  obtain ⟨⟨⟨⟨⟨⟨h1, h2⟩, h3⟩, h4⟩, h5⟩, h6⟩, h7⟩ := h
  simp only [build_groups, hierarchy, List.foldl, ensure_child,
    h1, h2, h3, h4, h5, h6, h7, if_true]

/-! ## Claim theorems -/

/-- C1 (code_bug): the inner `get_distance` of `setup_pole_vector` was
meant to compute the 3D Euclidean distance between joint world positions
(its enclosing code computes a "chain length" from it), but its third term
is `(pos2[2] - pos2[2]) ** 2`, which is identically zero, so it computes
only the XY-plane distance.  First conjunct: the radicand ignores the Z
coordinates entirely.  At the concrete failing input — a straight chain
along Z through (0,0,0), (0,0,1), (0,0,2) — the code's offset distance is
0, while 0.8 times the 3D chain length demanded by the claim is 8/5; the
two disagree.  The claim's placement formula (mid X, mid Y, mid Z minus
the offset) does match the code (second conjunct). -/
theorem C1_pole_vector_offset_code_bug :
    (∀ p q : ℝ × ℝ × ℝ,
      get_distance_sq p q = (q.1 - p.1) ^ 2 + (q.2.1 - p.2.1) ^ 2) ∧
    (∀ (m : ℝ × ℝ × ℝ) (d : ℝ),
      pv_offset_translate m d = (m.1, m.2.1, m.2.2 - d)) ∧
    offset_dist_code (0, 0, 0) (0, 0, 1) (0, 0, 2) = 0 ∧
    0.8 * (Real.sqrt (euclid_sq (0, 0, 0) (0, 0, 1)) +
      Real.sqrt (euclid_sq (0, 0, 1) (0, 0, 2))) = 8 / 5 ∧
    offset_dist_code (0, 0, 0) (0, 0, 1) (0, 0, 2) ≠
      0.8 * (Real.sqrt (euclid_sq (0, 0, 0) (0, 0, 1)) +
        Real.sqrt (euclid_sq (0, 0, 1) (0, 0, 2))) := by
  have hcode : offset_dist_code (0, 0, 0) (0, 0, 1) (0, 0, 2) = 0 := by
    simp only [offset_dist_code, chain_length_code, get_distance, get_distance_sq]
    norm_num
  have h1 : euclid_sq (0, 0, 0) ((0, 0, 1) : ℝ × ℝ × ℝ) = 1 := by
    simp only [euclid_sq]; norm_num
  have h2 : euclid_sq (0, 0, 1) ((0, 0, 2) : ℝ × ℝ × ℝ) = 1 := by
    simp only [euclid_sq]; norm_num
  have hclaim : 0.8 * (Real.sqrt (euclid_sq (0, 0, 0) (0, 0, 1)) +
      Real.sqrt (euclid_sq (0, 0, 1) (0, 0, 2))) = 8 / 5 := by
    rw [h1, h2, Real.sqrt_one]; norm_num
  refine ⟨fun p q => by simp only [get_distance_sq]; ring, fun m d => rfl,
    hcode, hclaim, ?_⟩
  rw [hcode, hclaim]
  norm_num

/-- C5 (confirmed): after `build_groups` runs on any scene, the scene
contains a group ROOT, CONTROLS and DO_NOT_TOUCH are children of ROOT,
EXPORT_SKELETON, GEO, RIG_DEFORMERS and RIG_SYSTEMS are children of
DO_NOT_TOUCH, and the function returns "ROOT". -/
theorem C5_build_groups_structure (s : Scene) :
    (build_groups s).2 = "ROOT" ∧
    objExistsName (build_groups s).1 "ROOT" = true ∧
    objExistsPath (build_groups s).1 "ROOT" "CONTROLS" = true ∧
    objExistsPath (build_groups s).1 "ROOT" "DO_NOT_TOUCH" = true ∧
    objExistsPath (build_groups s).1 "DO_NOT_TOUCH" "EXPORT_SKELETON" = true ∧
    objExistsPath (build_groups s).1 "DO_NOT_TOUCH" "GEO" = true ∧
    objExistsPath (build_groups s).1 "DO_NOT_TOUCH" "RIG_DEFORMERS" = true ∧
    objExistsPath (build_groups s).1 "DO_NOT_TOUCH" "RIG_SYSTEMS" = true := by
  have h := groups_exist_after_build s
  simp only [groups_exist, Bool.and_eq_true] at h
  obtain ⟨⟨⟨⟨⟨⟨h1, h2⟩, h3⟩, h4⟩, h5⟩, h6⟩, h7⟩ := h
  exact ⟨rfl, h1, h2, h3, h4, h5, h6, h7⟩

/-- C8 (confirmed): `build_groups` is idempotent.  When ROOT and all six
child groups already exist it performs no mutation and still returns
"ROOT"; consequently running it twice leaves the same scene as running it
once. -/
theorem C8_build_groups_idempotent :
    (∀ s : Scene, groups_exist s = true → build_groups s = (s, "ROOT")) ∧
    (∀ s : Scene,
      build_groups (build_groups s).1 = ((build_groups s).1, "ROOT")) :=
  ⟨fun _ h => build_groups_of_exists h,
   fun s => build_groups_of_exists (groups_exist_after_build s)⟩

/-- Witness for C8 at a concrete scene that already has the full
hierarchy: `build_groups` leaves it unchanged. -/
theorem C8_build_groups_idempotent_witness :
    groups_exist
      [⟨"ROOT", none⟩, ⟨"CONTROLS", some "ROOT"⟩, ⟨"DO_NOT_TOUCH", some "ROOT"⟩,
       ⟨"EXPORT_SKELETON", some "DO_NOT_TOUCH"⟩, ⟨"GEO", some "DO_NOT_TOUCH"⟩,
       ⟨"RIG_DEFORMERS", some "DO_NOT_TOUCH"⟩,
       ⟨"RIG_SYSTEMS", some "DO_NOT_TOUCH"⟩] = true ∧
    build_groups
      [⟨"ROOT", none⟩, ⟨"CONTROLS", some "ROOT"⟩, ⟨"DO_NOT_TOUCH", some "ROOT"⟩,
       ⟨"EXPORT_SKELETON", some "DO_NOT_TOUCH"⟩, ⟨"GEO", some "DO_NOT_TOUCH"⟩,
       ⟨"RIG_DEFORMERS", some "DO_NOT_TOUCH"⟩,
       ⟨"RIG_SYSTEMS", some "DO_NOT_TOUCH"⟩] =
      ([⟨"ROOT", none⟩, ⟨"CONTROLS", some "ROOT"⟩, ⟨"DO_NOT_TOUCH", some "ROOT"⟩,
        ⟨"EXPORT_SKELETON", some "DO_NOT_TOUCH"⟩, ⟨"GEO", some "DO_NOT_TOUCH"⟩,
        ⟨"RIG_DEFORMERS", some "DO_NOT_TOUCH"⟩,
        ⟨"RIG_SYSTEMS", some "DO_NOT_TOUCH"⟩], "ROOT") :=
  ⟨by decide, C8_build_groups_idempotent.1 _ (by decide)⟩

/-- C7 (confirmed): `get_joint_info` returns `None` for every selection:
the empty-selection branch returns `None` after a warning, and the main
path builds the `joint_info` dictionary but falls off the end of the
function, which in Python returns `None`. -/
theorem C7_get_joint_info_returns_none
    (selected_joints : List String) (parentOf : String → Option String)
    (childrenOf : String → List String) :
    get_joint_info selected_joints parentOf childrenOf = none := by
  unfold get_joint_info
  split <;> rfl

/-! ## Helper lemmas: attributes and list indexing -/

theorem attributeQuery_addAttr (a : MayaAttr) (c : String) (s : AttrScene)
    (h : objExistsAttrScene s c = true) :
    attributeQuery (addAttr s c a) a.longName c = true := by
  induction s with
  | nil => simp [objExistsAttrScene] at h
  | cons e rest ih =>
    simp only [objExistsAttrScene, List.any_cons, Bool.or_eq_true] at h
    by_cases he : (e.1 == c) = true
    · have he' : e.1 = c := by simpa using he
      simp [addAttr, attributeQuery, he', List.any_append]
    · simp only [Bool.not_eq_true] at he
      simp only [addAttr, List.map_cons, he, Bool.false_eq_true, if_false,
        attributeQuery, List.any_cons, Bool.or_eq_true]
      right
      rcases h with h | h
      · rw [h] at he; cases he
      · exact ih h

theorem tail_zip_getElem? (l : List String) (k : Nat) :
    (l.tail.zip l)[k]? =
      (l[k + 1]?).bind (fun child => (l[k]?).map (fun parent => (child, parent))) := by
  rw [List.zip_eq_zipWith, List.getElem?_zipWith', List.getElem?_tail]
  cases l[k + 1]? <;> cases l[k]? <;> rfl

/-- C9 (confirmed): `add_fkik_switch_attribute` returns True exactly when
the control exists and lacks the FKIK_Switch attribute, in which case it
adds it as a keyable float with min 0, max 1 and default 0; it returns
False (leaving the scene unchanged) both when the control does not exist
and when the attribute is already present. -/
theorem C9_add_fkik_switch_attribute (s : AttrScene) (c : String) :
    ((add_fkik_switch_attribute s c).1 = true ↔
      (objExistsAttrScene s c = true ∧ attributeQuery s "FKIK_Switch" c = false)) ∧
    (objExistsAttrScene s c = false → add_fkik_switch_attribute s c = (false, s)) ∧
    (objExistsAttrScene s c = true → attributeQuery s "FKIK_Switch" c = true →
      add_fkik_switch_attribute s c = (false, s)) ∧
    (objExistsAttrScene s c = true → attributeQuery s "FKIK_Switch" c = false →
      add_fkik_switch_attribute s c = (true, addAttr s c fkik_attr) ∧
      attributeQuery (addAttr s c fkik_attr) "FKIK_Switch" c = true) ∧
    fkik_attr = ⟨"FKIK_Switch", "float", 0, 1, 0, true⟩ := by
  cases hex : objExistsAttrScene s c with
  | false =>
    refine ⟨?_, ?_, ?_, ?_, rfl⟩
    · simp [add_fkik_switch_attribute, hex]
    · intro _; simp [add_fkik_switch_attribute, hex]
    · intro h _; simp at h
    · intro h _; simp at h
  | true =>
    cases hat : attributeQuery s "FKIK_Switch" c with
    | false =>
      refine ⟨?_, ?_, ?_, ?_, rfl⟩
      · simp [add_fkik_switch_attribute, hex, hat]
      · intro h; simp at h
      · intro _ h2; simp at h2
      · intro _ _
        exact ⟨by simp [add_fkik_switch_attribute, hex, hat],
          attributeQuery_addAttr fkik_attr c s hex⟩
    | true =>
      refine ⟨?_, ?_, ?_, ?_, rfl⟩
      · simp [add_fkik_switch_attribute, hex, hat]
      · intro h; simp at h
      · intro _ _; simp [add_fkik_switch_attribute, hex, hat]
      · intro _ h2; simp at h2

/-- Witness for C9 at a concrete one-object scene without the attribute:
the call succeeds and appends the attribute. -/
theorem C9_add_fkik_switch_attribute_witness :
    objExistsAttrScene [("ctrl", [])] "ctrl" = true ∧
    attributeQuery [("ctrl", [])] "FKIK_Switch" "ctrl" = false ∧
    add_fkik_switch_attribute [("ctrl", [])] "ctrl" =
      (true, addAttr [("ctrl", [])] "ctrl" fkik_attr) :=
  ⟨by decide, by decide,
   ((C9_add_fkik_switch_attribute [("ctrl", [])] "ctrl").2.2.2.1
     (by decide) (by decide)).1⟩

/-- C2 (confirmed): `duplicate_and_rename_joints` returns one new joint
per input joint, in input order; the i-th name is the i-th input with
every occurrence of `_jnt` removed (Python's `replace`) and the suffix
appended; and the hierarchy loop parents each duplicate after the first to
the immediately preceding duplicate, so the duplicates form one linear
chain in input order (the k-th parenting operation makes duplicate k+1 a
child of duplicate k), independent of the original joints' hierarchy. -/
theorem C2_duplicate_and_rename_joints (joints : List String) (suffix : String) :
    (duplicate_and_rename_ops joints suffix).1.length = joints.length ∧
    (∀ k : Nat, (duplicate_and_rename_ops joints suffix).1[k]? =
      (joints[k]?).map (fun j => String.mk (removeJnt j.data) ++ suffix)) ∧
    (duplicate_and_rename_ops joints suffix).2.length = joints.length - 1 ∧
    (∀ k : Nat, (duplicate_and_rename_ops joints suffix).2[k]? =
      ((duplicate_and_rename_ops joints suffix).1[k + 1]?).bind (fun child =>
        ((duplicate_and_rename_ops joints suffix).1[k]?).map
          (fun parent => (child, parent)))) := by
  refine ⟨by simp [duplicate_and_rename_ops],
    fun k => by simp [duplicate_and_rename_ops], ?_, ?_⟩
  · simp only [duplicate_and_rename_ops]
    split
    · simp only [List.length_zip, List.length_tail, List.length_map]
      omega
    · rename_i h
      simp only [gt_iff_lt, not_lt, List.length_map] at h
      simp only [List.length_nil]
      omega
  · intro k
    simp only [duplicate_and_rename_ops]
    split
    · exact tail_zip_getElem? _ k
    · rename_i h
      simp only [gt_iff_lt, not_lt, List.length_map] at h
      rw [List.getElem?_eq_none (l := joints.map _) (by simp; omega)]
      rfl

/-! ## Helper lemmas: string order and suffix classification -/

theorem lexLe_total : ∀ a b : List Char, lexLe a b = true ∨ lexLe b a = true := by
  intro a
  induction a with
  | nil => intro b; left; rfl
  | cons x xs ih =>
    intro b
    cases b with
    | nil => right; rfl
    | cons y ys =>
      simp only [lexLe]
      rcases Nat.lt_trichotomy x.toNat y.toNat with h | h | h
      · left; simp [h]
      · have h1 : ¬ x.toNat < y.toNat := by omega
        have h2 : ¬ y.toNat < x.toNat := by omega
        rcases ih ys with hh | hh
        · left; simp [h1, h2, hh]
        · right; simp [h1, h2, hh]
      · right; simp [h]

theorem lexLe_trans : ∀ a b c : List Char,
    lexLe a b = true → lexLe b c = true → lexLe a c = true := by
  intro a
  induction a with
  | nil => intro b c _ _; rfl
  | cons x xs ih =>
    intro b c hab hbc
    cases b with
    | nil => simp [lexLe] at hab
    | cons y ys =>
      cases c with
      | nil => simp [lexLe] at hbc
      | cons z zs =>
        simp only [lexLe] at hab hbc ⊢
        rcases Nat.lt_trichotomy x.toNat y.toNat with h1 | h1 | h1
        · rcases Nat.lt_trichotomy y.toNat z.toNat with h2 | h2 | h2
          · simp [show x.toNat < z.toNat from by omega]
          · simp [show x.toNat < z.toNat from by omega]
          · simp [show ¬ y.toNat < z.toNat from by omega, h2] at hbc
        · simp only [show ¬ x.toNat < y.toNat from by omega,
            show ¬ y.toNat < x.toNat from by omega, if_false] at hab
          rcases Nat.lt_trichotomy y.toNat z.toNat with h2 | h2 | h2
          · simp [show x.toNat < z.toNat from by omega]
          · simp only [show ¬ y.toNat < z.toNat from by omega,
              show ¬ z.toNat < y.toNat from by omega, if_false] at hbc
            simp only [show ¬ x.toNat < z.toNat from by omega,
              show ¬ z.toNat < x.toNat from by omega, if_false]
            exact ih ys zs hab hbc
          · simp [show ¬ y.toNat < z.toNat from by omega, h2] at hbc
        · simp [show ¬ x.toNat < y.toNat from by omega, h1] at hab

instance : IsTotal String pyLeRel :=
  ⟨fun a b => lexLe_total a.data b.data⟩

instance : IsTrans String pyLeRel :=
  ⟨fun a b c => lexLe_trans a.data b.data c.data⟩

theorem classify_step_foldl (joints : List String) :
    ∀ acc : List String × List String × List String,
    joints.foldl
      (fun acc joint =>
        if pyEndsWith joint "_FK" then (acc.1, acc.2.1 ++ [joint], acc.2.2)
        else if pyEndsWith joint "_IK" then (acc.1, acc.2.1, acc.2.2 ++ [joint])
        else (acc.1 ++ [joint], acc.2.1, acc.2.2)) acc =
      (acc.1 ++ joints.filter (fun j => !pyEndsWith j "_FK" && !pyEndsWith j "_IK"),
       acc.2.1 ++ joints.filter (fun j => pyEndsWith j "_FK"),
       acc.2.2 ++ joints.filter (fun j => !pyEndsWith j "_FK" && pyEndsWith j "_IK")) := by
  induction joints with
  | nil => intro acc; simp
  | cons j rest ih =>
    intro acc
    simp only [List.foldl_cons, List.filter_cons]
    by_cases h1 : pyEndsWith j "_FK"
    · simp [h1, ih]
    · by_cases h2 : pyEndsWith j "_IK"
      · simp only [Bool.not_eq_true] at h1
        simp [h1, h2, ih]
      · simp only [Bool.not_eq_true] at h1 h2
        simp [h1, h2, ih]

theorem classify_joints_eq (joints : List String) :
    classify_joints joints =
      (joints.filter (fun j => !pyEndsWith j "_FK" && !pyEndsWith j "_IK"),
       joints.filter (fun j => pyEndsWith j "_FK"),
       joints.filter (fun j => !pyEndsWith j "_FK" && pyEndsWith j "_IK")) := by
  simpa using classify_step_foldl joints ([], [], [])

theorem endsWith_FK_not_IK {j : String} (h : pyEndsWith j "_FK" = true) :
    pyEndsWith j "_IK" = false := by
  by_contra hik
  simp only [Bool.not_eq_false] at hik
  unfold pyEndsWith at h hik
  rw [List.isSuffixOf_iff_suffix] at h hik
  rcases List.suffix_or_suffix_of_suffix h hik with hs | hs
  · exact absurd (hs.eq_of_length (by decide)) (by decide)
  · exact absurd (hs.eq_of_length (by decide)) (by decide)

theorem count_filter_neg {a : String} {p : String → Bool} {l : List String}
    (hp : p a = false) : List.count a (List.filter p l) = 0 := by
  apply List.count_eq_zero.mpr
  intro hmem
  rw [List.mem_filter] at hmem
  rw [hmem.2] at hp
  cases hp

/-- C4 (confirmed): `match_joints` splits the input into the joints ending
in `_FK` (second component), the joints ending in `_IK` (third
component), and all remaining joints (first component), each sorted in
ascending lexicographic order; every input name lands in exactly one of
the three lists, and together the three lists are a permutation of the
input. -/
theorem C4_match_joints (joints : List String) :
    ((match_joints joints).2.1.Perm
        (joints.filter (fun j => pyEndsWith j "_FK")) ∧
     (match_joints joints).2.2.Perm
        (joints.filter (fun j => pyEndsWith j "_IK")) ∧
     (match_joints joints).1.Perm
        (joints.filter (fun j => !pyEndsWith j "_FK" && !pyEndsWith j "_IK"))) ∧
    ((match_joints joints).1.Sorted pyLeRel ∧
     (match_joints joints).2.1.Sorted pyLeRel ∧
     (match_joints joints).2.2.Sorted pyLeRel) ∧
    ((match_joints joints).1 ++ (match_joints joints).2.1 ++
      (match_joints joints).2.2).Perm joints ∧
    (∀ j : String,
      (j ∈ (match_joints joints).2.1 ↔
        j ∈ joints ∧ pyEndsWith j "_FK" = true) ∧
      (j ∈ (match_joints joints).2.2 ↔
        j ∈ joints ∧ pyEndsWith j "_IK" = true) ∧
      (j ∈ (match_joints joints).1 ↔
        j ∈ joints ∧ pyEndsWith j "_FK" = false ∧ pyEndsWith j "_IK" = false)) ∧
    (∀ j ∈ joints,
      (j ∈ (match_joints joints).2.1 ∧ j ∉ (match_joints joints).2.2 ∧
        j ∉ (match_joints joints).1) ∨
      (j ∉ (match_joints joints).2.1 ∧ j ∈ (match_joints joints).2.2 ∧
        j ∉ (match_joints joints).1) ∨
      (j ∉ (match_joints joints).2.1 ∧ j ∉ (match_joints joints).2.2 ∧
        j ∈ (match_joints joints).1)) := by
  have hmj : match_joints joints =
      (pySortStrings (joints.filter (fun j => !pyEndsWith j "_FK" && !pyEndsWith j "_IK")),
       pySortStrings (joints.filter (fun j => pyEndsWith j "_FK")),
       pySortStrings (joints.filter (fun j => !pyEndsWith j "_FK" && pyEndsWith j "_IK"))) := by
    simp only [match_joints, classify_joints_eq]
  have hfilter_ik : joints.filter (fun j => !pyEndsWith j "_FK" && pyEndsWith j "_IK") =
      joints.filter (fun j => pyEndsWith j "_IK") := by
    apply List.filter_congr
    intro j _
    cases hfk : pyEndsWith j "_FK"
    · simp
    · simp [endsWith_FK_not_IK hfk]
  have pFK : (match_joints joints).2.1.Perm
      (joints.filter (fun j => pyEndsWith j "_FK")) := by
    rw [hmj]; exact List.perm_insertionSort pyLeRel _
  have pIK : (match_joints joints).2.2.Perm
      (joints.filter (fun j => pyEndsWith j "_IK")) := by
    rw [hmj]
    simpa [hfilter_ik] using List.perm_insertionSort pyLeRel
      (joints.filter (fun j => !pyEndsWith j "_FK" && pyEndsWith j "_IK"))
  have pEx : (match_joints joints).1.Perm
      (joints.filter (fun j => !pyEndsWith j "_FK" && !pyEndsWith j "_IK")) := by
    rw [hmj]; exact List.perm_insertionSort pyLeRel _
  have hsplit : ((joints.filter (fun j => !pyEndsWith j "_FK" && !pyEndsWith j "_IK")) ++
      (joints.filter (fun j => pyEndsWith j "_FK")) ++
      (joints.filter (fun j => pyEndsWith j "_IK"))).Perm joints := by
    apply List.perm_iff_count.mpr
    intro a
    simp only [List.count_append]
    by_cases hfk : pyEndsWith a "_FK" = true
    · have hik := endsWith_FK_not_IK hfk
      rw [List.count_filter (p := fun j => pyEndsWith j "_FK") hfk,
        count_filter_neg (p := fun j => !pyEndsWith j "_FK" && !pyEndsWith j "_IK")
          (by simp [hfk]),
        count_filter_neg (p := fun j => pyEndsWith j "_IK") hik]
      omega
    · simp only [Bool.not_eq_true] at hfk
      by_cases hik : pyEndsWith a "_IK" = true
      · rw [List.count_filter (p := fun j => pyEndsWith j "_IK") hik,
          count_filter_neg (p := fun j => pyEndsWith j "_FK") hfk,
          count_filter_neg (p := fun j => !pyEndsWith j "_FK" && !pyEndsWith j "_IK")
            (by simp [hik])]
        omega
      · simp only [Bool.not_eq_true] at hik
        rw [List.count_filter
            (p := fun j => !pyEndsWith j "_FK" && !pyEndsWith j "_IK")
            (by simp [hfk, hik]),
          count_filter_neg (p := fun j => pyEndsWith j "_FK") hfk,
          count_filter_neg (p := fun j => pyEndsWith j "_IK") hik]
        omega
  refine ⟨⟨pFK, pIK, pEx⟩, ⟨?_, ?_, ?_⟩, ?_, ?_, ?_⟩
  · rw [hmj]; exact List.sorted_insertionSort pyLeRel _
  · rw [hmj]; exact List.sorted_insertionSort pyLeRel _
  · rw [hmj]; exact List.sorted_insertionSort pyLeRel _
  · exact ((pEx.append pFK).append pIK).trans hsplit
  · intro j
    refine ⟨?_, ?_, ?_⟩
    · rw [pFK.mem_iff, List.mem_filter]
    · rw [pIK.mem_iff, List.mem_filter]
    · rw [pEx.mem_iff, List.mem_filter]
      simp [Bool.and_eq_true]
  · intro j hj
    by_cases hfk : pyEndsWith j "_FK" = true
    · have hik := endsWith_FK_not_IK hfk
      left
      refine ⟨pFK.mem_iff.mpr (List.mem_filter.mpr ⟨hj, hfk⟩), ?_, ?_⟩
      · rw [pIK.mem_iff, List.mem_filter]
        simp [hik]
      · rw [pEx.mem_iff, List.mem_filter]
        simp [hfk]
    · simp only [Bool.not_eq_true] at hfk
      by_cases hik : pyEndsWith j "_IK" = true
      · right; left
        refine ⟨?_, pIK.mem_iff.mpr (List.mem_filter.mpr ⟨hj, hik⟩), ?_⟩
        · rw [pFK.mem_iff, List.mem_filter]
          simp [hfk]
        · rw [pEx.mem_iff, List.mem_filter]
          simp [hik]
      · simp only [Bool.not_eq_true] at hik
        right; right
        refine ⟨?_, ?_, pEx.mem_iff.mpr (List.mem_filter.mpr ⟨hj, by simp [hfk, hik]⟩)⟩
        · rw [pFK.mem_iff, List.mem_filter]
          simp [hfk]
        · rw [pIK.mem_iff, List.mem_filter]
          simp [hik]

/-- Witness for C4 at a concrete joint list: the FK joint "a_FK" lands in
exactly one of the three returned lists. -/
theorem C4_match_joints_witness :
    ("a_FK" ∈ (match_joints ["b_FK", "a", "a_FK", "c_IK"]).2.1 ∧
      "a_FK" ∉ (match_joints ["b_FK", "a", "a_FK", "c_IK"]).2.2 ∧
      "a_FK" ∉ (match_joints ["b_FK", "a", "a_FK", "c_IK"]).1) ∨
    ("a_FK" ∉ (match_joints ["b_FK", "a", "a_FK", "c_IK"]).2.1 ∧
      "a_FK" ∈ (match_joints ["b_FK", "a", "a_FK", "c_IK"]).2.2 ∧
      "a_FK" ∉ (match_joints ["b_FK", "a", "a_FK", "c_IK"]).1) ∨
    ("a_FK" ∉ (match_joints ["b_FK", "a", "a_FK", "c_IK"]).2.1 ∧
      "a_FK" ∉ (match_joints ["b_FK", "a", "a_FK", "c_IK"]).2.2 ∧
      "a_FK" ∈ (match_joints ["b_FK", "a", "a_FK", "c_IK"]).1) :=
  (C4_match_joints ["b_FK", "a", "a_FK", "c_IK"]).2.2.2.2 "a_FK" (by decide)

/-! ## Claim C3: FK/IK blend wiring -/

/-- C3 counterexample: the claim quantifies over all equal-length lists,
but on equal-length *empty* lists `create_fkik_blend_joints` does not
return a constraint list (which would have to be empty, one constraint
per triple): it raises an IndexError evaluating `export_joints[0]` for
the side prefix. -/
theorem C3_counterexample_empty_lists :
    ([] : List String).length = ([] : List String).length ∧
    create_fkik_blend_joints [] [] [] "switch_ctrl" =
      .error "IndexError: list index out of range" :=
  ⟨rfl, rfl⟩

/-- C3 as amended (corrected): for equal-length *non-empty* lists,
`create_fkik_blend_joints` creates one parent constraint per joint
triple, driving the export joint with the FK and IK joints as targets
(FK first, so Maya's weight alias list is `[FK, IK]`); every
constraint's second (IK) weight is fed by the control's FKIK_Switch
attribute and its first (FK) weight by the single shared reverse node's
outputX, the reverse node's input being the switch attribute, so switch
value 0 gives FK weight `1 - 0 = 1` and IK weight 0, and value 1 gives
FK weight 0 and IK weight 1; the function returns the constraint list.
If the lists' lengths differ it warns and returns None without creating
constraints. -/
theorem C3_create_fkik_blend_joints :
    (∀ (e f i : List String) (control : String),
      e.length ≠ f.length ∨ e.length ≠ i.length →
      create_fkik_blend_joints e f i control = .ok none) ∧
    (∀ (e0 : String) (es f i : List String) (control : String),
      (e0 :: es).length = f.length → (e0 :: es).length = i.length →
      create_fkik_blend_joints (e0 :: es) f i control =
        .ok (some
          ⟨(if pyStartsWith e0 "l_" then "l_" else "r_") ++ "FKIK_reverse",
           control ++ ".FKIK_Switch",
           ((e0 :: es).zip (f.zip i)).map (fun t =>
             ⟨t.1, t.2.1, t.2.2,
              ((if pyStartsWith e0 "l_" then "l_" else "r_") ++ "FKIK_reverse")
                ++ ".outputX",
              control ++ ".FKIK_Switch"⟩)⟩) ∧
      (((e0 :: es).zip (f.zip i)).map (fun t =>
        (⟨t.1, t.2.1, t.2.2,
          ((if pyStartsWith e0 "l_" then "l_" else "r_") ++ "FKIK_reverse")
            ++ ".outputX",
          control ++ ".FKIK_Switch"⟩ : FkikConstraint))).length =
        (e0 :: es).length ∧
      (∀ k : Nat,
        (((e0 :: es).zip (f.zip i)).map (fun t =>
          (⟨t.1, t.2.1, t.2.2,
            ((if pyStartsWith e0 "l_" then "l_" else "r_") ++ "FKIK_reverse")
              ++ ".outputX",
            control ++ ".FKIK_Switch"⟩ : FkikConstraint)))[k]? =
          ((e0 :: es)[k]?).bind (fun ej => (f[k]?).bind (fun fj =>
            (i[k]?).map (fun ij =>
              (⟨ej, fj, ij,
                ((if pyStartsWith e0 "l_" then "l_" else "r_") ++ "FKIK_reverse")
                  ++ ".outputX",
                control ++ ".FKIK_Switch"⟩ : FkikConstraint)))))) ∧
    (∀ s : ℚ, reverse_output s = 1 - s) ∧
    reverse_output 0 = 1 ∧ reverse_output 1 = 0 := by
  refine ⟨?_, ?_, fun s => rfl, by norm_num [reverse_output], by norm_num [reverse_output]⟩
  · intro e f i control h
    simp only [create_fkik_blend_joints, if_pos h]
  · intro e0 es f i control hf hi
    have hcond : ¬((e0 :: es).length ≠ f.length ∨ (e0 :: es).length ≠ i.length) := by
      push_neg
      exact ⟨hf, hi⟩
    refine ⟨?_, ?_, ?_⟩
    · simp only [create_fkik_blend_joints, if_neg hcond]
    · simp only [List.length_cons] at hf hi
      simp only [List.length_map, List.length_zip, List.length_cons]
      omega
    · intro k
      simp only [List.zip_eq_zipWith, List.getElem?_zipWith', List.getElem?_map]
      cases (e0 :: es)[k]? <;> cases f[k]? <;> cases i[k]? <;> rfl

/-- Witness for the amended C3 at concrete inputs: a one-triple build
succeeds with the expected constraint, and a length mismatch returns
None. -/
theorem C3_create_fkik_blend_joints_witness :
    create_fkik_blend_joints ["l_arm"] ["l_arm_FK"] ["l_arm_IK"] "sc" =
      .ok (some ⟨"l_FKIK_reverse", "sc.FKIK_Switch",
        [⟨"l_arm", "l_arm_FK", "l_arm_IK", "l_FKIK_reverse.outputX",
          "sc.FKIK_Switch"⟩]⟩) ∧
    create_fkik_blend_joints ["a"] [] [] "sc" = .ok none :=
  ⟨((C3_create_fkik_blend_joints.2.1 "l_arm" [] ["l_arm_FK"] ["l_arm_IK"] "sc"
      rfl rfl).1).trans (by rfl),
   C3_create_fkik_blend_joints.1 ["a"] [] [] "sc" (by simp)⟩

/-! ## Claim C6: FK control creation -/

theorem fk_loop_controls (js : List String) :
    ∀ prev, (fk_loop prev js).controls = js.map ctrl_name_of := by
  induction js with
  | nil => intro prev; rfl
  | cons j rest ih => intro prev; simp [fk_loop, ih]

theorem fk_loop_offsets (js : List String) :
    ∀ prev, (fk_loop prev js).offsets = js.map offset_name_of := by
  induction js with
  | nil => intro prev; rfl
  | cons j rest ih => intro prev; simp [fk_loop, ih]

theorem fk_loop_control_parent (js : List String) :
    ∀ prev, (fk_loop prev js).control_parent =
      js.map (fun j => (ctrl_name_of j, offset_name_of j)) := by
  induction js with
  | nil => intro prev; rfl
  | cons j rest ih => intro prev; simp [fk_loop, ih]

theorem fk_loop_constraints (js : List String) :
    ∀ prev, (fk_loop prev js).constraints =
      js.map (fun j => (ctrl_name_of j, j)) := by
  induction js with
  | nil => intro prev; rfl
  | cons j rest ih => intro prev; simp [fk_loop, ih]

theorem fk_loop_matched (js : List String) :
    ∀ prev, (fk_loop prev js).matched =
      js.map (fun j => (offset_name_of j, j)) := by
  induction js with
  | nil => intro prev; rfl
  | cons j rest ih => intro prev; simp [fk_loop, ih]

theorem fk_loop_offset_parent_some (js : List String) :
    ∀ p, (fk_loop (some p) js).offset_parent =
      (js.map offset_name_of).zip (p :: js.map ctrl_name_of) := by
  induction js with
  | nil => intro p; rfl
  | cons j rest ih =>
    intro p
    simp only [fk_loop, List.map_cons, List.zip_cons_cons, List.singleton_append]
    rw [ih]

theorem fk_loop_offset_parent_none (js : List String) :
    (fk_loop none js).offset_parent =
      (js.tail.map offset_name_of).zip (js.map ctrl_name_of) := by
  cases js with
  | nil => rfl
  | cons j rest =>
    simp only [fk_loop, List.tail_cons, List.nil_append, List.map_cons]
    rw [fk_loop_offset_parent_some]

/-- C6 (confirmed): with an existing control template and a non-empty
joint list, `create_fk_controls` creates, per joint in input order, a
duplicated control named by replacing `_FK` with `_ctrl` (appending
`_ctrl` when `_FK` is absent), an offset group named with `_offset`
likewise, matched to the joint's transform; the control is parented
under its offset group, each offset group after the first is parented
under the previously created control, and each joint is driven from its
control by a parent constraint; the created control names are returned
in joint order.  A missing template or an empty joint list warns and
returns an empty list. -/
theorem C6_create_fk_controls :
    (∀ (scene : List String) (tpl : String) (joints : List String),
      scene.contains tpl = false →
      create_fk_controls scene tpl joints = ([], ⟨[], [], [], [], [], []⟩)) ∧
    (∀ (scene : List String) (tpl : String),
      create_fk_controls scene tpl [] = ([], ⟨[], [], [], [], [], []⟩)) ∧
    (∀ (scene : List String) (tpl : String) (joints : List String),
      scene.contains tpl = true → joints ≠ [] →
      create_fk_controls scene tpl joints =
        (joints.map ctrl_name_of,
         ⟨joints.map ctrl_name_of,
          joints.map offset_name_of,
          joints.map (fun j => (ctrl_name_of j, offset_name_of j)),
          (joints.tail.map offset_name_of).zip (joints.map ctrl_name_of),
          joints.map (fun j => (ctrl_name_of j, j)),
          joints.map (fun j => (offset_name_of j, j))⟩)) ∧
    (∀ j : String, pyContains j "_FK" = true →
      ctrl_name_of j = String.mk (replaceFK "_ctrl".data j.data) ∧
      offset_name_of j = String.mk (replaceFK "_offset".data j.data)) ∧
    (∀ j : String, pyContains j "_FK" = false →
      ctrl_name_of j = j ++ "_ctrl" ∧ offset_name_of j = j ++ "_offset") := by
  refine ⟨?_, ?_, ?_, ?_, ?_⟩
  · intro scene tpl joints hs
    unfold create_fk_controls
    rw [hs]
    rfl
  · intro scene tpl
    unfold create_fk_controls
    cases h : scene.contains tpl
    · rfl
    · rfl
  · intro scene tpl joints hs hne
    unfold create_fk_controls
    rw [hs, if_neg (by simp), if_neg (by simpa [List.isEmpty_iff] using hne)]
    rw [show fk_loop none joints =
        (⟨(fk_loop none joints).controls, (fk_loop none joints).offsets,
          (fk_loop none joints).control_parent, (fk_loop none joints).offset_parent,
          (fk_loop none joints).constraints,
          (fk_loop none joints).matched⟩ : FkControlsOps) from rfl,
      fk_loop_controls, fk_loop_offsets, fk_loop_control_parent,
      fk_loop_offset_parent_none, fk_loop_constraints, fk_loop_matched]
  · intro j h
    exact ⟨by simp [ctrl_name_of, h], by simp [offset_name_of, h]⟩
  · intro j h
    exact ⟨by simp [ctrl_name_of, h], by simp [offset_name_of, h]⟩

/-- Witness for C6 at a concrete template and two-joint chain. -/
theorem C6_create_fk_controls_witness :
    (["circle"] : List String).contains "circle" = true ∧
    create_fk_controls ["circle"] "circle" ["l_arm_FK", "l_elbow_FK"] =
      (["l_arm_ctrl", "l_elbow_ctrl"],
       ⟨["l_arm_ctrl", "l_elbow_ctrl"],
        ["l_arm_offset", "l_elbow_offset"],
        [("l_arm_ctrl", "l_arm_offset"), ("l_elbow_ctrl", "l_elbow_offset")],
        [("l_elbow_offset", "l_arm_ctrl")],
        [("l_arm_ctrl", "l_arm_FK"), ("l_elbow_ctrl", "l_elbow_FK")],
        [("l_arm_offset", "l_arm_FK"), ("l_elbow_offset", "l_elbow_FK")]⟩) :=
  ⟨by decide,
   (C6_create_fk_controls.2.2.1 ["circle"] "circle" ["l_arm_FK", "l_elbow_FK"]
     (by decide) (by decide)).trans (by decide)⟩

end Rigging
